import Mathlib

/-!
# CloudHealth perspective resource (`cloudhealth/resource_cht_perspective.go`)

A shallow embedding of the Terraform resource for CloudHealth perspectives:

* the declared schema (`resourceCHTPerspective`),
* the four transport-backed operations (`resourceCHTPerspectiveCreate`, `…Read`,
  `…Update`, `…Delete`), written as pure functions over an explicit environment
  (HTTP transport, codec) that return the final record, the trace of effects and the
  returned `error`,
* the pieces of the Go standard library the operations rely on
  (`regexp.FindStringSubmatch` for the confirmation pattern, `strconv.Atoi`),
* the perspective codec (`tfToJson`, `jsonToTF`), which this file calls but does not
  define: the operations take it as part of their environment, and a model of it written
  from the specification is used for the round-trip property.

Go strings are byte sequences; here they are Lean strings. The patterns and digits the
code looks at are ASCII, so matching and parsing agree on the two readings.
-/

namespace Cloudhealth

/-! ## The declared schema -/

/-- Go `schema.ValueType` (the types used by this resource). -/
inductive ValueType
  | TypeBool
  | TypeString
  | TypeList
  deriving DecidableEq, Repr

/-- A field assignment inside a `schema.Schema{...}` literal (other than `Type` and
`Elem`). A field that is not assigned has Go's zero value. -/
inductive Attr
  | Required (b : Bool)
  | Optional (b : Bool)
  | Computed (b : Bool)
  | ForceNew (b : Bool)
  | Default (v : String)
  deriving DecidableEq, Repr

mutual
/-- Go `schema.Schema`: `Type`, the assigned fields, and `Elem`. -/
inductive Schema
  | mk (type : ValueType) (attrs : List Attr) (elem : Elem)
/-- The `Elem` of a `schema.Schema`: absent, a `*schema.Schema`, or a `*schema.Resource`
given by its `Schema` map (in source order). -/
inductive Elem
  | none
  | schema (s : Schema)
  | resource (fields : List (String × Schema))
end

/-- The assigned fields of a schema. -/
def Schema.attrs : Schema → List Attr
  | .mk _ attrs _ => attrs

/-- Go `s.Elem`. -/
def Schema.elem : Schema → Elem
  | .mk _ _ e => e

/-- Go `s.Required`. -/
def Schema.Required (s : Schema) : Bool := s.attrs.contains (.Required true)

/-- Go `s.Optional`. -/
def Schema.Optional (s : Schema) : Bool := s.attrs.contains (.Optional true)

/-- Go `s.Computed`. -/
def Schema.Computed (s : Schema) : Bool := s.attrs.contains (.Computed true)

/-- Go `s.Default` (`none` is `nil`). -/
def Schema.Default (s : Schema) : Option String :=
  s.attrs.findSome? (fun a => match a with | .Default v => some v | _ => none)

/-- The fields of the resource nested under a schema, if its `Elem` is a resource. -/
def Schema.fields (s : Schema) : List (String × Schema) :=
  match s.elem with
  | .resource fs => fs
  | _ => []

/-- Look a field up by name in a `Schema` map. -/
def lookupField (fs : List (String × Schema)) (name : String) : Option Schema :=
  (fs.find? (fun kv => kv.1 = name)).map (fun kv => kv.2)

mutual
/-- Every default declared at or below a schema, with the path of field names leading
to it. -/
def Schema.defaults : Schema → List (List String × String)
  | .mk _ attrs e =>
    attrs.filterMap (fun a => match a with | .Default v => some ([], v) | _ => none) ++
      e.defaults
/-- Defaults declared below an `Elem`. -/
def Elem.defaults : Elem → List (List String × String)
  | .none => []
  | .schema s => s.defaults
  | .resource fs => defaultsOfFields fs
/-- Defaults declared in a `Schema` map. -/
def defaultsOfFields : List (String × Schema) → List (List String × String)
  | [] => []
  | (n, s) :: rest => s.defaults.map (fun pv => (n :: pv.1, pv.2)) ++ defaultsOfFields rest
end

/-- Lines 16–202: the `Schema` map of the resource returned by `resourceCHTPerspective`
(its `Create`/`Read`/`Update`/`Delete` slots are `Op.run`). -/
def resourceCHTPerspective : List (String × Schema) :=
  [ ("name", .mk .TypeString [.Required true, .ForceNew false] .none),
    ("include_in_reports", .mk .TypeBool [.Required true, .ForceNew false] .none),
    ("group", .mk .TypeList [.Optional true, .ForceNew false] (.resource
      [ ("name", .mk .TypeString [.Required true, .ForceNew false] .none),
        ("ref_id", .mk .TypeString [.ForceNew false, .Computed true, .Optional true] .none),
        ("type", .mk .TypeString [.Optional true, .ForceNew false, .Default "filter"] .none),
        ("rule", .mk .TypeList [.Optional true, .ForceNew false] (.resource
          [ ("asset", .mk .TypeString [.Required true, .ForceNew false] .none),
            ("tag_field", .mk .TypeList [.Optional true, .ForceNew false]
              (.schema (.mk .TypeString [] .none))),
            ("field", .mk .TypeList [.Optional true, .ForceNew false]
              (.schema (.mk .TypeString [] .none))),
            ("combine_with", .mk .TypeString [.Optional true, .ForceNew false] .none),
            ("condition", .mk .TypeList [.Optional true, .ForceNew false] (.resource
              [ ("tag_field", .mk .TypeList [.Optional true, .ForceNew false]
                  (.schema (.mk .TypeString [] .none))),
                ("field", .mk .TypeList [.Optional true, .ForceNew false]
                  (.schema (.mk .TypeString [] .none))),
                ("op", .mk .TypeString [.Optional true, .ForceNew false, .Default "="] .none),
                ("val", .mk .TypeString [.Optional true, .ForceNew false] .none) ])) ])),
        ("dynamic_group", .mk .TypeList [.Optional true, .ForceNew false, .Computed true]
          (.resource
          [ ("ref_id", .mk .TypeString [.ForceNew false, .Computed true, .Optional true] .none),
            ("name", .mk .TypeString [.ForceNew false, .Computed true, .Optional true] .none),
            ("val", .mk .TypeString [.ForceNew false, .Computed true, .Optional true] .none)
          ])) ])),
    ("other_group", .mk .TypeList [.Optional true, .ForceNew false, .Computed true]
      (.resource
      [ ("constant_type", .mk .TypeString [.ForceNew false, .Computed true] .none),
        ("ref_id", .mk .TypeString [.ForceNew false, .Computed true] .none),
        ("blk_id", .mk .TypeString [.ForceNew false, .Computed true, .Optional true] .none),
        ("name", .mk .TypeString [.ForceNew false, .Computed true, .Optional true] .none),
        ("val", .mk .TypeString [.ForceNew false, .Computed true, .Optional true] .none),
        ("is_other", .mk .TypeString [.ForceNew false, .Computed true, .Optional true] .none)
      ])) ]

/-- The schema of the `other_group` attribute together with the schemas of its entry
fields, by name (`other_group` itself comes first). -/
def otherGroupSchemas : List (String × Schema) :=
  match lookupField resourceCHTPerspective "other_group" with
  | some s => ("other_group", s) :: s.fields
  | none => []

/-! ## Go standard library: `regexp` (the fragment used by the confirmation pattern) -/

/-- One element of a regular expression that is a sequence of literal characters and
capturing groups of the form `(\d*)`. -/
inductive Item
  | lit (c : Char)
  | digitsCap
  deriving DecidableEq, Repr

/-- Greedy `\d*` followed by the continuation `k`: consume as many ASCII digits as
possible, backing off one digit at a time while the continuation fails. Returns the text
taken by the star and the continuation's result. -/
def starDigits {R : Type} (k : List Char → Option R) : List Char → Option (List Char × R)
  | [] => (k []).map (fun r => ([], r))
  | x :: s =>
    if x.isDigit then
      match starDigits k s with
      | some (cap, r) => some (x :: cap, r)
      | none => (k (x :: s)).map (fun r => ([], r))
    else (k (x :: s)).map (fun r => ([], r))

/-- Match the expression anchored at the start of the input. Returns the matched text and
the texts of the capturing groups, in order. -/
def matchHere : List Item → List Char → Option (List Char × List (List Char))
  | [], _ => some ([], [])
  | .lit c :: is, s =>
    match s with
    | [] => none
    | x :: t => if x = c then (matchHere is t).map (fun (m, g) => (x :: m, g)) else none
  | .digitsCap :: is, s =>
    (starDigits (matchHere is) s).map (fun (cap, m, g) => (cap ++ m, cap :: g))

/-- Go `(*Regexp).FindStringSubmatch`: the leftmost match and its submatches
(`match[0]` is the whole match, `match[i]` the i-th group); `none` is Go's `nil`. -/
def FindStringSubmatch (re : List Item) : List Char → Option (List (List Char))
  | [] => (matchHere re []).map (fun (m, g) => m :: g)
  | x :: t =>
    match matchHere re (x :: t) with
    | some (m, g) => some (m :: g)
    | none => FindStringSubmatch re t

/-- The compiled pattern of line 227: `Perspective (\d*) created`. -/
def confirmationRe : List Item :=
  "Perspective ".data.map Item.lit ++ [Item.digitsCap] ++ " created".data.map Item.lit

/-! ## Go standard library: `strconv.Atoi` (64-bit `int`) -/

/-- The two sentinel errors of `strconv`. -/
inductive ErrKind
  | ErrSyntax
  | ErrRange
  deriving DecidableEq, Repr

/-- Digit loop of `strconv.ParseUint(s, 10, 64)`. -/
def parseUintLoop (n : Nat) : List Char → Except ErrKind Nat
  | [] => .ok n
  | c :: cs =>
    if c.isDigit then
      let d := c.toNat - 48
      if n ≥ (2 ^ 64 - 1) / 10 + 1 then .error .ErrRange
      else if n * 10 + d > 2 ^ 64 - 1 then .error .ErrRange
      else parseUintLoop (n * 10 + d) cs
    else .error .ErrSyntax

/-- Go `strconv.ParseUint(s, 10, 64)`. -/
def ParseUint (s : List Char) : Except ErrKind Nat :=
  match s with
  | [] => .error .ErrSyntax
  | _ => parseUintLoop 0 s

/-- Go `strconv.Atoi` on a 64-bit platform (the fast path and `ParseInt(s, 10, 0)` agree). -/
def Atoi (s : String) : Except ErrKind Int :=
  match s.data with
  | [] => .error .ErrSyntax
  | c :: cs =>
    let neg := c = '-'
    let body := if c = '+' ∨ c = '-' then cs else c :: cs
    match ParseUint body with
    | .error e => .error e
    | .ok un =>
      if ¬ neg ∧ un ≥ 2 ^ 63 then .error .ErrRange
      else if neg ∧ un > 2 ^ 63 then .error .ErrRange
      else .ok (if neg then - (un : Int) else (un : Int))

/-- Text of `ErrSyntax` / `ErrRange`. -/
def ErrKind.Error : ErrKind → String
  | .ErrSyntax => "invalid syntax"
  | .ErrRange => "value out of range"

/-! ## Environment, record and effects -/

/-- What the operations inspect of a `*http.Response`: the status code and the result of
`ioutil.ReadAll(resp.Body)` (the bytes read and the read error, if any). -/
structure Response where
  StatusCode : Int
  Body : String
  ReadErr : Option String
  deriving DecidableEq, Repr

/-- A `*http.Request` as built by `http.NewRequest` and amended by `Header.Set`. -/
structure Request where
  Method : String
  URL : String
  Body : Option String
  Header : List (String × String)
  deriving DecidableEq, Repr

/-- Go `http.Header.Set`. -/
def Request.HeaderSet (req : Request) (k v : String) : Request :=
  { req with Header := (k, v) :: req.Header.filter (fun kv => kv.1 ≠ k) }

/-- `ChtMeta`: the provider configuration handed to every operation. -/
structure ChtMeta where
  apiKey : String
  deriving DecidableEq, Repr

/-- What the operations use of a `*schema.ResourceData`: the record id (`Id`/`SetId`) and
the configuration fields the codec reads and writes. -/
structure ResourceData (Cfg : Type) where
  id : String
  cfg : Cfg

/-- The collaborators of the operations: the codec of this repository (`tfToJson`,
`jsonToTF`, defined outside this file) and the Go runtime (`net/http`, and
`strconv.Quote` used in the text of a `*strconv.NumError`). By the specification (§4.1,
§4.2) the codec reads and writes the configuration model held in the record, and may
update it in place; the record id is not part of that model. Errors of collaborators are
given by their `Error()` text. -/
structure Env (Cfg : Type) where
  tfToJson : Cfg → Cfg × Except String String
  jsonToTF : String → Cfg → Cfg × Option String
  Post : String → String → String → Except String Response
  Get : String → Except String Response
  NewRequest : String → String → Option String → Except String Request
  Do : Request → Except String Response
  Quote : String → String

/-- An `error` value returned by an operation: either the codec's error passed through
unchanged, or one built by the `fmt.Errorf` call on the given source line. -/
inductive GoError
  | codec (e : String)
  | errorf (line : Nat) (text : String)
  deriving DecidableEq, Repr

/-- Go `Error()`. -/
def GoError.Error : GoError → String
  | .codec e => e
  | .errorf _ text => text

/-- Observable effects of an operation, in program order. -/
inductive Event
  | encode
  | post (url contentType body : String) (res : Except String Response)
  | get (url : String) (res : Except String Response)
  | clientDo (req : Request) (res : Except String Response)
  | setId (id : String)
  | log (line : String)
  | decode (body : String)

/-- Calls that go out on the network. -/
def Event.isTransport : Event → Bool
  | .post .. => true
  | .get .. => true
  | .clientDo .. => true
  | _ => false

/-- Calls of `d.SetId`. -/
def Event.isSetId : Event → Bool
  | .setId _ => true
  | _ => false

/-- Calls of the decoder `jsonToTF`. -/
def Event.isDecode : Event → Bool
  | .decode _ => true
  | _ => false

/-- The HTTP response an event delivered, if any. -/
def Event.response? : Event → Option Response
  | .post _ _ _ (.ok r) => some r
  | .get _ (.ok r) => some r
  | .clientDo _ (.ok r) => some r
  | _ => none

/-- Result of running an operation: the record afterwards, the effects, and the returned
`error` (`none` is `nil`). -/
structure Outcome (Cfg : Type) where
  d : ResourceData Cfg
  trace : List Event
  err : Option GoError

/-- The operation got the HTTP response `r` back from the transport. -/
def Outcome.received {Cfg : Type} (o : Outcome Cfg) (r : Response) : Prop :=
  ∃ e ∈ o.trace, e.response? = some r

/-- Text of a `*strconv.NumError` from `Atoi`. -/
def numErrorText {Cfg : Type} (env : Env Cfg) (num : String) (k : ErrKind) : String :=
  "strconv.Atoi: parsing " ++ env.Quote num ++ ": " ++ k.Error

/-! ## The resource operations -/

/-- Line 14. -/
def apiUrl : String := "https://chapi.cloudhealthtech.com/v1/perspective_schemas"

/-- Go `http.StatusOK`. -/
def StatusOK : Int := 200

/-- Lines 204–235. -/
def resourceCHTPerspectiveCreate {Cfg : Type} (env : Env Cfg) (m : ChtMeta)
    (d : ResourceData Cfg) : Outcome Cfg :=
  let key := m.apiKey
  match env.tfToJson d.cfg with
  | (cfg1, .error err) => ⟨{ d with cfg := cfg1 }, [.encode], some (.codec err)⟩
  | (cfg1, .ok pj) =>
    let d1 : ResourceData Cfg := { d with cfg := cfg1 }
    let url := apiUrl ++ "?api_key=" ++ key
    let res := env.Post url "application/json" pj
    let tr := [Event.encode, Event.post url "application/json" pj res]
    match res with
    | .error err =>
      ⟨d1, tr, some (.errorf 215 ("Failed to create perspective because " ++ err))⟩
    | .ok resp =>
      if resp.StatusCode ≠ StatusOK then
        ⟨d1, tr, some (.errorf 220 ("Failed to create perspective " ++ d1.id ++
          " because got status code " ++ toString resp.StatusCode))⟩
      else
        match resp.ReadErr with
        | some err =>
          ⟨d1, tr, some (.errorf 225 ("Failed to create perspective because " ++ err))⟩
        | none =>
          let body := resp.Body
          match FindStringSubmatch confirmationRe body.data with
          | none =>
            ⟨d1, tr, some (.errorf 230
              ("Created perspective but didn't understand response to extract ID: " ++ body))⟩
          | some submatch =>
            if submatch.length ≠ 2 then
              ⟨d1, tr, some (.errorf 230
                ("Created perspective but didn't understand response to extract ID: " ++ body))⟩
            else
              let id := String.mk (submatch.getD 1 [])
              ⟨{ d1 with id := id }, tr ++ [.setId id], none⟩

/-- Lines 237–261. -/
def resourceCHTPerspectiveRead {Cfg : Type} (env : Env Cfg) (m : ChtMeta)
    (d : ResourceData Cfg) : Outcome Cfg :=
  let key := m.apiKey
  match Atoi d.id with
  | .error err =>
    ⟨d, [], some (.errorf 242 ("Failed to parse " ++ d.id ++ " as int because " ++
      numErrorText env d.id err))⟩
  | .ok id =>
    let url := apiUrl ++ "/" ++ toString id ++ "?api_key=" ++ key
    let res := env.Get url
    let tr := [Event.get url res]
    match res with
    | .error err =>
      ⟨d, tr, some (.errorf 248 ("Failed to load perspective " ++ d.id ++ " because " ++ err))⟩
    | .ok resp =>
      if resp.StatusCode ≠ StatusOK then
        ⟨d, tr, some (.errorf 252 ("Failed to load perspective " ++ d.id ++
          " because got status code " ++ toString resp.StatusCode))⟩
      else
        match resp.ReadErr with
        | some err =>
          ⟨d, tr, some (.errorf 257 ("Failed to read perspective " ++ d.id ++ " because " ++ err))⟩
        | none =>
          let body := resp.Body
          match env.jsonToTF body d.cfg with
          | (cfg1, e) => ⟨{ d with cfg := cfg1 }, tr ++ [.decode body], e.map GoError.codec⟩

/-- Lines 263–302. -/
def resourceCHTPerspectiveUpdate {Cfg : Type} (env : Env Cfg) (m : ChtMeta)
    (d : ResourceData Cfg) : Outcome Cfg :=
  let key := m.apiKey
  match env.tfToJson d.cfg with
  | (cfg1, .error err) => ⟨{ d with cfg := cfg1 }, [.encode], some (.codec err)⟩
  | (cfg1, .ok pj) =>
    let d1 : ResourceData Cfg := { d with cfg := cfg1 }
    match Atoi d1.id with
    | .error err =>
      ⟨d1, [.encode], some (.errorf 272 ("Failed to parse " ++ d1.id ++ " as int because " ++
        numErrorText env d1.id err))⟩
    | .ok id =>
      let url := apiUrl ++ "/" ++ toString id ++ "?api_key=" ++ key
      match env.NewRequest "PUT" url (some pj) with
      | .error err =>
        ⟨d1, [.encode], some (.errorf 279
          ("Failed to update perspective " ++ d1.id ++ " because " ++ err))⟩
      | .ok req0 =>
        let req := req0.HeaderSet "Content-Type" "application/json"
        let res := env.Do req
        let tr := [Event.encode, Event.clientDo req res]
        match res with
        | .error err =>
          ⟨d1, tr, some (.errorf 286
            ("Failed to update perspective " ++ d1.id ++ " because " ++ err))⟩
        | .ok resp =>
          if resp.StatusCode ≠ StatusOK then
            ⟨d1, tr, some (.errorf 291 ("Failed to update perspective " ++ d1.id ++
              " because got status code " ++ toString resp.StatusCode))⟩
          else
            let bodyStr := resp.Body
            let tr1 := tr ++ [.log ("Response to Cloudhealth PUT is: " ++ bodyStr)]
            if resp.StatusCode ≠ 200 then
              ⟨d1, tr1, some (.errorf 298 ("Got status code " ++ toString resp.StatusCode ++
                " when attempting to update perspective: " ++ bodyStr))⟩
            else
              ⟨d1, tr1, none⟩

/-- Lines 304–331. -/
def resourceCHTPerspectiveDelete {Cfg : Type} (env : Env Cfg) (m : ChtMeta)
    (d : ResourceData Cfg) : Outcome Cfg :=
  let key := m.apiKey
  match Atoi d.id with
  | .error err =>
    ⟨d, [], some (.errorf 309 ("Failed to parse " ++ d.id ++ " as int because " ++
      numErrorText env d.id err))⟩
  | .ok id =>
    let url := apiUrl ++ "/" ++ toString id ++ "?api_key=" ++ key
    match env.NewRequest "DELETE" url none with
    | .error err =>
      ⟨d, [], some (.errorf 316 ("Failed to delete perspective " ++ d.id ++ " because " ++ err))⟩
    | .ok req =>
      let res := env.Do req
      let tr := [Event.clientDo req res]
      match res with
      | .error err =>
        ⟨d, tr, some (.errorf 322
          ("Failed to delete perspective " ++ d.id ++ " because " ++ err))⟩
      | .ok resp =>
        if resp.StatusCode ≠ StatusOK then
          ⟨d, tr, some (.errorf 327 ("Failed to delete perspective " ++ d.id ++
            " because got status code " ++ toString resp.StatusCode))⟩
        else
          ⟨d, tr, none⟩

/-- The four operations registered by `resourceCHTPerspective` (lines 18–21). -/
inductive Op
  | Create
  | Read
  | Update
  | Delete
  deriving DecidableEq, Repr

/-- Run the operation registered under the given slot. -/
def Op.run {Cfg : Type} (op : Op) (env : Env Cfg) (m : ChtMeta) (d : ResourceData Cfg) :
    Outcome Cfg :=
  match op with
  | .Create => resourceCHTPerspectiveCreate env m d
  | .Read => resourceCHTPerspectiveRead env m d
  | .Update => resourceCHTPerspectiveUpdate env m d
  | .Delete => resourceCHTPerspectiveDelete env m d

/-- The text `needle` occurs in the text `hay`. -/
def occursIn (needle hay : String) : Prop := needle.data <:+: hay.data

instance (needle hay : String) : Decidable (occursIn needle hay) := by
  unfold occursIn; infer_instance

/-- Source line of the first status check of each operation. -/
def Op.statusLine : Op → Nat
  | .Create => 220
  | .Read => 252
  | .Update => 291
  | .Delete => 327

/-- The verb in the message of the first status check of each operation. -/
def Op.statusVerb : Op → String
  | .Create => "create"
  | .Read => "load"
  | .Update => "update"
  | .Delete => "delete"

/-! ## The perspective codec, modelled from the specification -/

/-- The codec's error taxonomy (specification §7). -/
inductive CodecError
  | MalformedConfig
  | UnparseableResponse
  deriving DecidableEq, Repr

/-- A JSON document, as a value: the codec's wire format. Turning a value into bytes and
back is left to the JSON library. -/
inductive Json
  | null
  | bool (b : Bool)
  | str (s : String)
  | arr (items : List Json)
  | obj (members : List (String × Json))

/-- Discriminator of a group (specification §3). -/
inductive GroupType
  | filter
  | categorize
  deriving DecidableEq, Repr

/-- Leaf predicate of a rule (specification §3). -/
structure Condition where
  tagFields : List String
  fields : List String
  op : String
  val : String
  deriving DecidableEq, Repr

/-- Inclusion condition-set of a filter group (specification §3). A rule may lack its
required `asset`; the encoder rejects such a rule. -/
structure Rule where
  asset : Option String
  tagFields : List String
  fields : List String
  combineWith : String
  conditions : List Condition
  deriving DecidableEq, Repr

/-- Server-computed leaf under a categorize group (specification §3). -/
structure DynamicGroup where
  refId : String
  name : String
  val : String
  deriving DecidableEq, Repr

/-- Server-maintained catch-all entry (specification §3). -/
structure OtherGroupEntry where
  constantType : String
  refId : String
  blkId : String
  name : String
  val : String
  isOther : String
  deriving DecidableEq, Repr

/-- Named classification bucket (specification §3); `refId` is absent until assigned. -/
structure Group where
  name : String
  refId : Option String
  type : GroupType
  rules : List Rule
  dynamicGroups : List DynamicGroup
  deriving DecidableEq, Repr

/-- Root entity of the configuration model (specification §3). -/
structure Perspective where
  name : String
  includeInReports : Bool
  groups : List Group
  otherGroups : List OtherGroupEntry
  deriving DecidableEq, Repr

/-- Apply a fallible function to every element in order; the first failure aborts. -/
def mapExcept {α β : Type} (f : α → Except CodecError β) : List α → Except CodecError (List β)
  | [] => .ok []
  | a :: as =>
    match f a with
    | .error e => .error e
    | .ok b =>
      match mapExcept f as with
      | .error e => .error e
      | .ok bs => .ok (b :: bs)

/-- Wire name of a group type. -/
def GroupType.wire : GroupType → String
  | .filter => "filter"
  | .categorize => "categorize"

/-- An array member that is left out when the sequence is empty (§4.1 step 2). -/
def optArr (key : String) (items : List Json) : List (String × Json) :=
  if items.isEmpty then [] else [(key, .arr items)]

/-- Wire form of a condition: `tag_field`, `field`, `op`, `val`. -/
def conditionToJson (c : Condition) : Json :=
  .obj (optArr "tag_field" (c.tagFields.map Json.str) ++ optArr "field" (c.fields.map Json.str) ++
    [("op", .str c.op), ("val", .str c.val)])

/-- Wire form of a rule: `asset`, `tag_field`, `field`, `combine_with`, `condition`;
`MalformedConfig` when the rule has no asset. -/
def ruleToJson (r : Rule) : Except CodecError Json :=
  match r.asset with
  | none => .error .MalformedConfig
  | some a =>
    .ok (.obj ([("asset", .str a)] ++ optArr "tag_field" (r.tagFields.map Json.str) ++
      optArr "field" (r.fields.map Json.str) ++ [("combine_with", .str r.combineWith)] ++
      optArr "condition" (r.conditions.map conditionToJson)))

/-- Wire form of a group: `name`, `ref_id`, `type`, and `rule` for a filter group. A
categorize group is emitted without `rule`, and `dynamic_group` is never emitted
(§4.1 steps 2–3). -/
def groupToJson (g : Group) : Except CodecError Json :=
  let head : List (String × Json) :=
    [("name", .str g.name)] ++
      (match g.refId with
        | some r => [("ref_id", .str r)]
        | none => []) ++
      [("type", .str g.type.wire)]
  match g.type with
  | .filter =>
    match mapExcept ruleToJson g.rules with
    | .error e => .error e
    | .ok rs => .ok (.obj (head ++ optArr "rule" rs))
  | .categorize => .ok (.obj head)

/-- Wire form of an other-group entry, passed through unchanged (§4.1 step 4). -/
def otherGroupToJson (o : OtherGroupEntry) : Json :=
  .obj [("constant_type", .str o.constantType), ("ref_id", .str o.refId),
    ("blk_id", .str o.blkId), ("name", .str o.name), ("val", .str o.val),
    ("is_other", .str o.isOther)]

/-- Every reference identifier present in a perspective: those of groups, of dynamic
groups, and the `refId` and `blkId` of other-group entries (§4.3). -/
def existingRefIds (p : Perspective) : List String :=
  p.groups.filterMap (fun g => g.refId) ++
    (p.groups.map (fun g => g.dynamicGroups.map (fun dg => dg.refId))).flatten ++
    (p.otherGroups.map (fun o => [o.refId, o.blkId])).flatten

/-- One walk over the groups, in order (§4.1 step 1): a group that has a `refId` keeps
it; a group that lacks one gets the identifier synthesized from the identifiers in use,
which then counts as in use. A synthesized identifier that collides is `MalformedConfig`. -/
def assignRefIds (synth : List String → String) :
    List String → List Group → Except CodecError (List Group)
  | _, [] => .ok []
  | used, g :: gs =>
    match g.refId with
    | some _ =>
      match assignRefIds synth used gs with
      | .error e => .error e
      | .ok gs1 => .ok (g :: gs1)
    | none =>
      let id := synth used
      if id ∈ used then .error .MalformedConfig
      else
        match assignRefIds synth (id :: used) gs with
        | .error e => .error e
        | .ok gs1 => .ok ({ g with refId := some id } :: gs1)

/-- Modelled from the spec: the encoder `tfToJson` (the specification's `Encode`, §4.1
and §4.3), whose definition is not in this file. It assigns reference identifiers to the
groups that lack one, using the synthesis scheme `synth` (left open by the
specification), and builds the document; it returns the model with the assigned
identifiers together with the document. -/
def Encode (synth : List String → String) (p : Perspective) :
    Except CodecError (Perspective × Json) :=
  match assignRefIds synth (existingRefIds p) p.groups with
  | .error e => .error e
  | .ok gs =>
    match mapExcept groupToJson gs with
    | .error e => .error e
    | .ok js =>
      .ok ({ p with groups := gs },
        .obj [("name", .str p.name), ("include_in_reports", .bool p.includeInReports),
          ("group", .arr js), ("other_group", .arr (p.otherGroups.map otherGroupToJson))])

/-- The members of a JSON object; anything else is unparseable. -/
def asObj : Json → Except CodecError (List (String × Json))
  | .obj members => .ok members
  | _ => .error .UnparseableResponse

/-- Member lookup by key. -/
def member? (members : List (String × Json)) (key : String) : Option Json :=
  (members.find? (fun kv => kv.1 = key)).map (fun kv => kv.2)

/-- A required string member. -/
def reqStr (members : List (String × Json)) (key : String) : Except CodecError String :=
  match member? members key with
  | some (.str s) => .ok s
  | _ => .error .UnparseableResponse

/-- An optional string member with a default for absence. -/
def optStr (members : List (String × Json)) (key dflt : String) : Except CodecError String :=
  match member? members key with
  | none => .ok dflt
  | some (.str s) => .ok s
  | some _ => .error .UnparseableResponse

/-- An optional array member; absence is the empty sequence. -/
def optItems (members : List (String × Json)) (key : String) : Except CodecError (List Json) :=
  match member? members key with
  | none => .ok []
  | some (.arr items) => .ok items
  | some _ => .error .UnparseableResponse

/-- A JSON string. -/
def asStr : Json → Except CodecError String
  | .str s => .ok s
  | _ => .error .UnparseableResponse

/-- An optional array of strings. -/
def optStrs (members : List (String × Json)) (key : String) : Except CodecError (List String) :=
  match optItems members key with
  | .error e => .error e
  | .ok items => mapExcept asStr items

/-- Parse a condition (§4.2 step 2); an absent `op` is the default `=`. -/
def jsonToCondition (j : Json) : Except CodecError Condition :=
  match asObj j with
  | .error e => .error e
  | .ok ms =>
    match optStrs ms "tag_field", optStrs ms "field", optStr ms "op" "=", optStr ms "val" "" with
    | .ok tagFields, .ok fields, .ok op, .ok val => .ok ⟨tagFields, fields, op, val⟩
    | _, _, _, _ => .error .UnparseableResponse

/-- Parse a rule (§4.2 step 2); a rule without `asset` is unparseable. -/
def jsonToRule (j : Json) : Except CodecError Rule :=
  match asObj j with
  | .error e => .error e
  | .ok ms =>
    match reqStr ms "asset", optStrs ms "tag_field", optStrs ms "field",
      optStr ms "combine_with" "", optItems ms "condition" with
    | .ok asset, .ok tagFields, .ok fields, .ok combineWith, .ok cs =>
      match mapExcept jsonToCondition cs with
      | .error e => .error e
      | .ok conditions => .ok ⟨some asset, tagFields, fields, combineWith, conditions⟩
    | _, _, _, _, _ => .error .UnparseableResponse

/-- Parse a dynamic group verbatim (§4.2 step 2). -/
def jsonToDynamicGroup (j : Json) : Except CodecError DynamicGroup :=
  match asObj j with
  | .error e => .error e
  | .ok ms =>
    match optStr ms "ref_id" "", optStr ms "name" "", optStr ms "val" "" with
    | .ok refId, .ok name, .ok val => .ok ⟨refId, name, val⟩
    | _, _, _ => .error .UnparseableResponse

/-- Parse the `type` member; absence is the default `filter`. -/
def jsonToGroupType (ms : List (String × Json)) : Except CodecError GroupType :=
  match member? ms "type" with
  | none => .ok .filter
  | some (.str s) =>
    if s = "filter" then .ok .filter
    else if s = "categorize" then .ok .categorize
    else .error .UnparseableResponse
  | some _ => .error .UnparseableResponse

/-- Parse the optional `ref_id` member. -/
def jsonToRefId (ms : List (String × Json)) : Except CodecError (Option String) :=
  match member? ms "ref_id" with
  | none => .ok none
  | some (.str s) => .ok (some s)
  | some _ => .error .UnparseableResponse

/-- Parse a group (§4.2 step 2): `ref_id`, `name`, `type`; the `rule` entries of a filter
group; the `dynamic_group` entries of a categorize group. -/
def jsonToGroup (j : Json) : Except CodecError Group :=
  match asObj j with
  | .error e => .error e
  | .ok ms =>
    match reqStr ms "name", jsonToRefId ms, jsonToGroupType ms with
    | .ok name, .ok refId, .ok .filter =>
      match optItems ms "rule" with
      | .error e => .error e
      | .ok rs =>
        match mapExcept jsonToRule rs with
        | .error e => .error e
        | .ok rules => .ok ⟨name, refId, .filter, rules, []⟩
    | .ok name, .ok refId, .ok .categorize =>
      match optItems ms "dynamic_group" with
      | .error e => .error e
      | .ok ds =>
        match mapExcept jsonToDynamicGroup ds with
        | .error e => .error e
        | .ok dynamicGroups => .ok ⟨name, refId, .categorize, [], dynamicGroups⟩
    | _, _, _ => .error .UnparseableResponse

/-- Parse an other-group entry verbatim (§4.2 step 3). -/
def jsonToOtherGroup (j : Json) : Except CodecError OtherGroupEntry :=
  match asObj j with
  | .error e => .error e
  | .ok ms =>
    match optStr ms "constant_type" "", optStr ms "ref_id" "", optStr ms "blk_id" "",
      optStr ms "name" "", optStr ms "val" "", optStr ms "is_other" "" with
    | .ok constantType, .ok refId, .ok blkId, .ok name, .ok val, .ok isOther =>
      .ok ⟨constantType, refId, blkId, name, val, isOther⟩
    | _, _, _, _, _, _ => .error .UnparseableResponse

/-- An optional boolean member; absence is `false`. -/
def optBool (members : List (String × Json)) (key : String) : Except CodecError Bool :=
  match member? members key with
  | none => .ok false
  | some (.bool b) => .ok b
  | some _ => .error .UnparseableResponse

/-- Modelled from the spec: the decoder `jsonToTF` (the specification's `Decode`, §4.2),
whose definition is not in this file. It parses `name` and `include_in_reports`, the
`group` array and the `other_group` array (member names as fixed in §6), in the order
received. A missing `name` or a member of the wrong type is `UnparseableResponse`. -/
def Decode (j : Json) : Except CodecError Perspective :=
  match asObj j with
  | .error e => .error e
  | .ok ms =>
    match reqStr ms "name", optBool ms "include_in_reports", optItems ms "group",
      optItems ms "other_group" with
    | .ok name, .ok includeInReports, .ok gs, .ok os =>
      match mapExcept jsonToGroup gs, mapExcept jsonToOtherGroup os with
      | .ok groups, .ok otherGroups => .ok ⟨name, includeInReports, groups, otherGroups⟩
      | _, _ => .error .UnparseableResponse
    | _, _, _, _ => .error .UnparseableResponse

/-- A synthesis scheme for reference identifiers: a run of zeros longer than every
identifier in use. -/
def synthLonger (used : List String) : String :=
  String.mk (List.replicate ((used.map String.length).foldr max 0 + 1) '0')

/-- The read-modify-write scenario of §8: one categorize group with two dynamic groups,
and one other-group entry whose `blk_id` is that group's `ref_id`. -/
def scenarioPayload : Json :=
  .obj [("name", .str "Cost by Team"), ("include_in_reports", .bool true),
    ("group", .arr [.obj [("name", .str "Team"), ("ref_id", .str "101"),
      ("type", .str "categorize"),
      ("dynamic_group", .arr [
        .obj [("ref_id", .str "201"), ("name", .str "infra"), ("val", .str "infra")],
        .obj [("ref_id", .str "202"), ("name", .str "web"), ("val", .str "web")]])]]),
    ("other_group", .arr [.obj [("constant_type", .str "Static Group"),
      ("ref_id", .str "301"), ("blk_id", .str "101"), ("name", .str "Other"),
      ("val", .str ""), ("is_other", .str "true")]])]

/-- The new-perspective scenario of §8 as a payload: one filter group without `ref_id`,
with one rule and one condition. -/
def newPerspectivePayload : Json :=
  .obj [("name", .str "Cost by Team"), ("include_in_reports", .bool true),
    ("group", .arr [.obj [("name", .str "Team"), ("type", .str "filter"),
      ("rule", .arr [.obj [("asset", .str "Instance"),
        ("condition", .arr [.obj [("field", .arr [.str "tag", .str "Team"]),
          ("op", .str "="), ("val", .str "infra")]])]])]])]

/-- The model decoded from `newPerspectivePayload`. -/
def newPerspectiveModel : Perspective :=
  ⟨"Cost by Team", true,
    [⟨"Team", none, .filter, [⟨some "Instance", [], [], "", [⟨[], ["tag", "Team"], "=", "infra"⟩]⟩],
      []⟩],
    []⟩

/-- Decode, encode, decode again. -/
def reDecode (synth : List String → String) (j : Json) : Except CodecError Perspective :=
  match Decode j with
  | .error e => .error e
  | .ok p =>
    match Encode synth p with
    | .error e => .error e
    | .ok (_, j1) => Decode j1


/-- What the decoder establishes about a group and the encoder relies on: every rule has
its asset, and a categorize group has no rules. -/
def Group.wellFormed (g : Group) : Prop :=
  (∀ r ∈ g.rules, r.asset.isSome = true) ∧ (g.type = .categorize → g.rules = [])

/-- The group with its dynamic groups left out. -/
def Group.withoutDynamic (g : Group) : Group := { g with dynamicGroups := [] }

/-- Group `g1` is group `g` after identifier assignment: it has a `refId`, which is the
one `g` had if `g` had one, and nothing else differs. -/
def refIdAssigned (g g1 : Group) : Prop :=
  g1 = { g with refId := g1.refId } ∧ g1.refId.isSome = true ∧
    ∀ r, g.refId = some r → g1.refId = some r

/-- The model decoded from `scenarioPayload`. -/
def scenarioModel : Perspective :=
  ⟨"Cost by Team", true,
    [⟨"Team", some "101", .categorize, [], [⟨"201", "infra", "infra"⟩, ⟨"202", "web", "web"⟩]⟩],
    [⟨"Static Group", "301", "101", "Other", "", "true"⟩]⟩

/-! ## Concrete environments used to exercise the operations -/

/-- An environment whose codec always succeeds (payload `{}`) and whose transport answers
every request with `res`. -/
def stubEnv (res : Except String Response) : Env Unit where
  tfToJson c := (c, .ok "\x7b\x7d")
  jsonToTF _ c := (c, none)
  Post _ _ _ := res
  Get _ := res
  NewRequest method url body := .ok ⟨method, url, body, []⟩
  Do _ := res
  Quote s := "\"" ++ s ++ "\""

/-- An environment whose encoder fails with `e`; the transport would answer 200. -/
def failingEncoderEnv (e : String) : Env Unit :=
  { stubEnv (.ok ⟨200, "Perspective 1 created", none⟩) with tfToJson := fun c => (c, .error e) }

/-- The provider configuration used in the examples. -/
def exampleMeta : ChtMeta := ⟨"secret"⟩

/-- A record that has not been created yet. -/
def freshRecord : ResourceData Unit := ⟨"", ()⟩

/-- A record of an existing perspective. -/
def storedRecord : ResourceData Unit := ⟨"4821", ()⟩

/-! ## Lemmas on the regular-expression matcher -/

theorem matchHere_lits_append (l : List Char) (rest : List Item) (s : List Char) :
    matchHere (l.map Item.lit ++ rest) (l ++ s) =
      (matchHere rest s).map (fun mg => (l ++ mg.1, mg.2)) := by
  induction l with
  | nil => cases h : matchHere rest s <;> simp [h]
  | cons c l ih =>
    simp only [List.map_cons, List.cons_append, matchHere, ↓reduceIte, List.append_eq]
    rw [ih]
    cases h : matchHere rest s <;> simp

theorem matchHere_lits_sound (l : List Char) (rest : List Item) (s m : List Char)
    (g : List (List Char)) (h : matchHere (l.map Item.lit ++ rest) s = some (m, g)) :
    ∃ s1 m1, s = l ++ s1 ∧ m = l ++ m1 ∧ matchHere rest s1 = some (m1, g) := by
  induction l generalizing s m with
  | nil => exact ⟨s, m, rfl, rfl, h⟩
  | cons c l ih =>
    cases s with
    | nil => simp [matchHere] at h
    | cons x t =>
      simp only [List.map_cons, List.cons_append, matchHere, List.append_eq] at h
      split at h
      · rename_i hx
        cases hm : matchHere (l.map Item.lit ++ rest) t with
        | none => simp [hm] at h
        | some mg =>
          obtain ⟨m0, g0⟩ := mg
          simp only [hm, Option.map_some', Option.some.injEq, Prod.mk.injEq] at h
          obtain ⟨rfl, rfl⟩ := h
          obtain ⟨s1, m1, rfl, rfl, h1⟩ := ih t m0 hm
          exact ⟨s1, m1, by simp [hx], by simp [hx], h1⟩
      · simp at h

theorem starDigits_complete {R : Type} (k : List Char → Option R) (ds rest : List Char) (r : R)
    (hds : ∀ c ∈ ds, c.isDigit = true) (hk : k rest = some r)
    (hrest : ∀ c t, rest = c :: t → c.isDigit = false) :
    starDigits k (ds ++ rest) = some (ds, r) := by
  induction ds with
  | nil =>
    cases rest with
    | nil => simp [starDigits, hk]
    | cons c t => simp [starDigits, hrest c t rfl, hk]
  | cons x ds ih =>
    have hx : x.isDigit = true := hds x (by simp)
    have ih1 := ih (fun c hc => hds c (by simp [hc]))
    simp [starDigits, hx, ih1]

theorem starDigits_sound {R : Type} (k : List Char → Option R) (s cap : List Char) (r : R)
    (h : starDigits k s = some (cap, r)) :
    (∀ c ∈ cap, c.isDigit = true) ∧ ∃ rest, s = cap ++ rest ∧ k rest = some r := by
  induction s generalizing cap with
  | nil =>
    simp only [starDigits, Option.map_eq_some', Prod.mk.injEq] at h
    obtain ⟨r1, hk, rfl, rfl⟩ := h
    exact ⟨by simp, [], rfl, hk⟩
  | cons x s ih =>
    simp only [starDigits] at h
    split at h
    · rename_i hx
      split at h
      · rename_i cap1 r1 hs
        simp only [Option.some.injEq, Prod.mk.injEq] at h
        obtain ⟨rfl, rfl⟩ := h
        obtain ⟨hd, rest, rfl, hk⟩ := ih cap1 hs
        refine ⟨?_, rest, rfl, hk⟩
        intro c hc
        rcases List.mem_cons.mp hc with rfl | hc
        · exact hx
        · exact hd c hc
      · simp only [Option.map_eq_some', Prod.mk.injEq] at h
        obtain ⟨r1, hk, rfl, rfl⟩ := h
        exact ⟨by simp, x :: s, rfl, hk⟩
    · simp only [Option.map_eq_some', Prod.mk.injEq] at h
      obtain ⟨r1, hk, rfl, rfl⟩ := h
      exact ⟨by simp, x :: s, rfl, hk⟩

/-- A pattern `P(\d*)C` anchored at the start of a text of exactly that shape, where the
literal `C` starts with a non-digit. -/
theorem matchHere_shape (P C ds post : List Char) (hds : ∀ c ∈ ds, c.isDigit = true)
    (hC : ∀ c t, C ++ post = c :: t → c.isDigit = false) :
    matchHere (P.map Item.lit ++ Item.digitsCap :: C.map Item.lit) (P ++ ds ++ C ++ post) =
      some (P ++ ds ++ C, [ds]) := by
  have hk : matchHere (C.map Item.lit) (C ++ post) = some (C, []) := by
    have h := matchHere_lits_append C [] post
    rw [List.append_nil] at h
    rw [h]
    simp [matchHere]
  have hstar := starDigits_complete (matchHere (C.map Item.lit)) ds (C ++ post) (C, []) hds hk hC
  have h := matchHere_lits_append P (Item.digitsCap :: C.map Item.lit) (ds ++ (C ++ post))
  rw [List.append_assoc, List.append_assoc, h]
  simp only [matchHere, hstar, Option.map_some', List.append_assoc]

/-- Whatever a pattern `P(\d*)C` matches at the start of a text has the shape
`P <digits> C`, and the single group is `<digits>`. -/
theorem matchHere_shape_sound (P C s m : List Char) (g : List (List Char))
    (h : matchHere (P.map Item.lit ++ Item.digitsCap :: C.map Item.lit) s = some (m, g)) :
    ∃ ds post, (∀ c ∈ ds, c.isDigit = true) ∧
      s = P ++ ds ++ C ++ post ∧ m = P ++ ds ++ C ∧ g = [ds] := by
  obtain ⟨s1, m1, rfl, rfl, h1⟩ := matchHere_lits_sound _ _ _ _ _ h
  simp only [matchHere, Option.map_eq_some'] at h1
  obtain ⟨⟨cap, m2, g2⟩, hs, heq⟩ := h1
  simp only [Prod.mk.injEq] at heq
  obtain ⟨rfl, rfl⟩ := heq
  obtain ⟨hd, rest, rfl, hk⟩ := starDigits_sound _ _ _ _ hs
  have hk1 : matchHere (C.map Item.lit ++ []) rest = some (m2, g2) := by
    rw [List.append_nil]; exact hk
  obtain ⟨s3, m3, rfl, rfl, h3⟩ := matchHere_lits_sound _ _ _ _ _ hk1
  simp only [matchHere, Option.some.injEq, Prod.mk.injEq] at h3
  obtain ⟨rfl, rfl⟩ := h3
  exact ⟨cap, s3, hd, by simp only [List.append_assoc], by simp only [List.append_assoc, List.append_nil], rfl⟩

theorem confirmationRe_eq :
    confirmationRe =
      "Perspective ".data.map Item.lit ++ Item.digitsCap :: " created".data.map Item.lit := by
  rfl

/-- A successful `FindStringSubmatch` with the confirmation pattern returns exactly two
submatches, and the text contains `Perspective <digits> created`. -/
theorem FindStringSubmatch_confirmation_sound (s : List Char) (l : List (List Char))
    (h : FindStringSubmatch confirmationRe s = some l) :
    ∃ pre ds post, (∀ c ∈ ds, c.isDigit = true) ∧
      s = pre ++ "Perspective ".data ++ ds ++ " created".data ++ post ∧
      l = ["Perspective ".data ++ ds ++ " created".data, ds] := by
  induction s with
  | nil =>
    simp only [FindStringSubmatch, Option.map_eq_some'] at h
    obtain ⟨⟨m, g⟩, hm, rfl⟩ := h
    rw [confirmationRe_eq] at hm
    obtain ⟨ds, post, hd, hs, rfl, rfl⟩ := matchHere_shape_sound _ _ _ _ _ hm
    exact ⟨[], ds, post, hd, by rw [List.nil_append]; exact hs, rfl⟩
  | cons x t ih =>
    simp only [FindStringSubmatch] at h
    split at h
    · rename_i m g hm
      simp only [Option.some.injEq] at h
      subst h
      rw [confirmationRe_eq] at hm
      obtain ⟨ds, post, hd, hs, rfl, rfl⟩ := matchHere_shape_sound _ _ _ _ _ hm
      exact ⟨[], ds, post, hd, by rw [List.nil_append]; exact hs, rfl⟩
    · obtain ⟨pre, ds, post, hd, rfl, rfl⟩ := ih h
      exact ⟨x :: pre, ds, post, hd, by simp, rfl⟩

theorem FindStringSubmatch_of_matchHere (re : List Item) (s m : List Char)
    (g : List (List Char)) (h : matchHere re s = some (m, g)) :
    FindStringSubmatch re s = some (m :: g) := by
  cases s <;> simp [FindStringSubmatch, h]

theorem occursIn_append_right (a b : String) : occursIn b (a ++ b) :=
  ⟨a.data, [], by simp⟩

/-! ## The operations -/

/-- The error of the first status check: whenever an operation gets a response whose
status is not 200, it returns the `fmt.Errorf` of that check, built from the record id and
the status code. -/
theorem status_error_exact {Cfg : Type} (op : Op) (env : Env Cfg) (m : ChtMeta)
    (d : ResourceData Cfg) (r : Response) (hrecv : (op.run env m d).received r)
    (hne : r.StatusCode ≠ 200) :
    (op.run env m d).err = some (.errorf op.statusLine
      ("Failed to " ++ op.statusVerb ++ " perspective " ++ d.id ++
        " because got status code " ++ toString r.StatusCode)) := by
  revert hrecv
  cases op <;> simp only [Op.run, Outcome.received, Op.statusLine, Op.statusVerb]
  · unfold resourceCHTPerspectiveCreate
    simp only []
    repeat' split
    all_goals simp_all [Event.response?, StatusOK]
    all_goals (rintro rfl; simp_all [String.append_assoc])
  · unfold resourceCHTPerspectiveRead
    simp only []
    repeat' split
    all_goals simp_all [Event.response?, StatusOK]
    all_goals (rintro rfl; simp_all [String.append_assoc])
  · unfold resourceCHTPerspectiveUpdate
    simp only []
    repeat' split
    all_goals simp_all [Event.response?, StatusOK]
    all_goals (rintro rfl; simp_all [String.append_assoc])
  · unfold resourceCHTPerspectiveDelete
    simp only []
    repeat' split
    all_goals simp_all [Event.response?, StatusOK]
    all_goals (rintro rfl; simp_all [String.append_assoc])

/-- C1: for every non-empty string `n` of decimal digits, when encoding succeeds and the
POST answers status 200 with the body `"Perspective " ++ n ++ " created"`, read without
error, `resourceCHTPerspectiveCreate` returns no error and sets the record id to `n`. -/
theorem create_confirmation_sets_id {Cfg : Type} (env : Env Cfg) (m : ChtMeta)
    (d : ResourceData Cfg) (n pj : String) (cfg1 : Cfg)
    (_hn : n.data ≠ []) (hdigits : ∀ c ∈ n.data, c.isDigit = true)
    (henc : env.tfToJson d.cfg = (cfg1, .ok pj))
    (hpost : env.Post (apiUrl ++ "?api_key=" ++ m.apiKey) "application/json" pj =
      .ok ⟨200, "Perspective " ++ n ++ " created", none⟩) :
    (resourceCHTPerspectiveCreate env m d).err = none ∧
      (resourceCHTPerspectiveCreate env m d).d.id = n ∧
      Event.setId n ∈ (resourceCHTPerspectiveCreate env m d).trace := by
  have hm := matchHere_shape "Perspective ".data " created".data n.data [] hdigits
    (by intro c t hct; simp at hct; rw [← hct.1]; decide)
  rw [← confirmationRe_eq, List.append_nil] at hm
  have hf := FindStringSubmatch_of_matchHere _ _ _ _ hm
  have hbody : ("Perspective " ++ n ++ " created").data =
      "Perspective ".data ++ n.data ++ " created".data := by
    simp only [String.data_append]
  unfold resourceCHTPerspectiveCreate
  simp only [henc, hpost, hbody, hf, StatusOK]
  simp

/-- Witness for C1: body `Perspective 4821 created` gives id `4821`. -/
theorem create_confirmation_sets_id_witness :
    (resourceCHTPerspectiveCreate (stubEnv (.ok ⟨200, "Perspective 4821 created", none⟩))
        exampleMeta freshRecord).err = none ∧
      (resourceCHTPerspectiveCreate (stubEnv (.ok ⟨200, "Perspective 4821 created", none⟩))
        exampleMeta freshRecord).d.id = "4821" ∧
      Event.setId "4821" ∈
        (resourceCHTPerspectiveCreate (stubEnv (.ok ⟨200, "Perspective 4821 created", none⟩))
          exampleMeta freshRecord).trace :=
  create_confirmation_sets_id (stubEnv (.ok ⟨200, "Perspective 4821 created", none⟩))
    exampleMeta freshRecord "4821" "\x7b\x7d" () (by decide) (by decide) rfl rfl

/-- Rejection of an unrecognised confirmation, as far as the pattern of line 227 gives
it: when the POST answers status 200 with a body in which the text `Perspective `
followed by a possibly empty run of decimal digits followed by ` created` does not
occur, `resourceCHTPerspectiveCreate` returns an error, the record id is unchanged and
`SetId` is never called. -/
theorem create_unrecognised_body_fails {Cfg : Type} (env : Env Cfg) (m : ChtMeta)
    (d : ResourceData Cfg) (r : Response)
    (hrecv : (resourceCHTPerspectiveCreate env m d).received r)
    (hstatus : r.StatusCode = 200)
    (hno : ¬ ∃ pre ds post, (∀ c ∈ ds, c.isDigit = true) ∧
      r.Body.data = pre ++ "Perspective ".data ++ ds ++ " created".data ++ post) :
    (resourceCHTPerspectiveCreate env m d).err.isSome = true ∧
      (resourceCHTPerspectiveCreate env m d).d.id = d.id ∧
      (resourceCHTPerspectiveCreate env m d).trace.filter Event.isSetId = [] := by
  have hnone : FindStringSubmatch confirmationRe r.Body.data = none := by
    cases hf : FindStringSubmatch confirmationRe r.Body.data with
    | none => rfl
    | some l =>
      obtain ⟨pre, ds, post, hd, hs, _⟩ := FindStringSubmatch_confirmation_sound _ _ hf
      exact absurd ⟨pre, ds, post, hd, hs⟩ hno
  clear hno
  revert hrecv
  simp only [Outcome.received]
  unfold resourceCHTPerspectiveCreate
  simp only []
  repeat' split
  all_goals simp_all [Event.response?, Event.isSetId, StatusOK]
  all_goals (rintro rfl; simp_all)

/-- The body `Created OK` is rejected. -/
theorem create_unrecognised_body_fails_witness :
    (resourceCHTPerspectiveCreate (stubEnv (.ok ⟨200, "Created OK", none⟩))
        exampleMeta freshRecord).err.isSome = true ∧
      (resourceCHTPerspectiveCreate (stubEnv (.ok ⟨200, "Created OK", none⟩))
        exampleMeta freshRecord).d.id = freshRecord.id ∧
      (resourceCHTPerspectiveCreate (stubEnv (.ok ⟨200, "Created OK", none⟩))
        exampleMeta freshRecord).trace.filter Event.isSetId = [] :=
  create_unrecognised_body_fails (stubEnv (.ok ⟨200, "Created OK", none⟩))
    exampleMeta freshRecord ⟨200, "Created OK", none⟩
    ⟨_, List.mem_cons_of_mem _ (List.mem_singleton.mpr rfl), rfl⟩ rfl
    (by
      rintro ⟨pre, ds, post, -, h⟩
      have hmem : 'P' ∈ "Created OK".data := by
        rw [show ("Created OK" : String).data = (⟨200, "Created OK", none⟩ : Response).Body.data
          from rfl, h]
        simp
      revert hmem
      decide)

/-- C2 (evaluation at the failing input): the body `Perspective  created` contains no
`Perspective ` followed by a non-empty run of decimal digits followed by ` created`, and
the POST that delivers it has status 200; yet `resourceCHTPerspectiveCreate` returns no
error and calls `SetId` with the empty string. -/
theorem create_accepts_body_without_digits :
    (¬ ∃ pre ds post, ds ≠ [] ∧ (∀ c ∈ ds, c.isDigit = true) ∧
      "Perspective  created".data =
        pre ++ "Perspective ".data ++ ds ++ " created".data ++ post) ∧
      (resourceCHTPerspectiveCreate (stubEnv (.ok ⟨200, "Perspective  created", none⟩))
        exampleMeta freshRecord).received ⟨200, "Perspective  created", none⟩ ∧
      (resourceCHTPerspectiveCreate (stubEnv (.ok ⟨200, "Perspective  created", none⟩))
        exampleMeta freshRecord).err = none ∧
      (resourceCHTPerspectiveCreate (stubEnv (.ok ⟨200, "Perspective  created", none⟩))
        exampleMeta freshRecord).trace.filter Event.isSetId = [Event.setId ""] := by
  refine ⟨?_, ⟨_, List.mem_cons_of_mem _ (List.mem_cons_self _ _), rfl⟩, rfl, rfl⟩
  rintro ⟨pre, ds, post, hne, hd, h⟩
  cases ds with
  | nil => exact hne rfl
  | cons c cs =>
    have hc : c.isDigit = true := hd c (by simp)
    have hmem : c ∈ "Perspective  created".data := by
      rw [h]
      simp
    have hnone : ∀ x ∈ "Perspective  created".data, x.isDigit = false := by decide
    rw [hnone c hmem] at hc
    exact absurd hc (by simp)

/-- C3 (evaluation at the failing input): with status 200 and the body
`Perspective  created` (no digits), `resourceCHTPerspectiveCreate` returns no error and
stores the empty string as the record id; `resourceCHTPerspectiveRead` on that record
then fails at line 242 (`strconv.Atoi`) before any request is sent. -/
theorem create_accepts_empty_identifier :
    (resourceCHTPerspectiveCreate (stubEnv (.ok ⟨200, "Perspective  created", none⟩))
        exampleMeta freshRecord).err = none ∧
      (resourceCHTPerspectiveCreate (stubEnv (.ok ⟨200, "Perspective  created", none⟩))
        exampleMeta freshRecord).d.id = "" ∧
      (resourceCHTPerspectiveCreate (stubEnv (.ok ⟨200, "Perspective  created", none⟩))
        exampleMeta freshRecord).trace.filter Event.isSetId = [Event.setId ""] ∧
      Atoi "" = .error .ErrSyntax ∧
      (resourceCHTPerspectiveRead (stubEnv (.ok ⟨200, "\x7b\x7d", none⟩)) exampleMeta
        (resourceCHTPerspectiveCreate (stubEnv (.ok ⟨200, "Perspective  created", none⟩))
          exampleMeta freshRecord).d).err =
        some (.errorf 242 "Failed to parse  as int because strconv.Atoi: parsing \"\": invalid syntax") ∧
      (resourceCHTPerspectiveRead (stubEnv (.ok ⟨200, "\x7b\x7d", none⟩)) exampleMeta
        (resourceCHTPerspectiveCreate (stubEnv (.ok ⟨200, "Perspective  created", none⟩))
          exampleMeta freshRecord).d).trace = [] := by
  refine ⟨rfl, rfl, rfl, rfl, rfl, rfl⟩

/-- C4: for each of Create, Read, Update and Delete and every HTTP response whose status
code is not in 200..299, the operation returns an error; Create then leaves the record id
unchanged and never calls `SetId`, and Read never calls the decoder. -/
theorem non_2xx_status_is_error {Cfg : Type} (op : Op) (env : Env Cfg) (m : ChtMeta)
    (d : ResourceData Cfg) (r : Response) (hrecv : (op.run env m d).received r)
    (hcode : ¬ (200 ≤ r.StatusCode ∧ r.StatusCode ≤ 299)) :
    (op.run env m d).err.isSome = true ∧
      (op = .Create → (op.run env m d).d.id = d.id ∧
        (op.run env m d).trace.filter Event.isSetId = []) ∧
      (op = .Read → (op.run env m d).trace.filter Event.isDecode = []) := by
  have hne : r.StatusCode ≠ StatusOK := by
    intro h; apply hcode; rw [h]; decide
  simp only [StatusOK] at hne
  revert hrecv
  cases op <;> simp only [Op.run, Outcome.received]
  · unfold resourceCHTPerspectiveCreate
    simp only []
    repeat' split
    all_goals simp_all [Event.response?, Event.isSetId, Event.isDecode, StatusOK]
    all_goals (rintro rfl; simp_all)
  · unfold resourceCHTPerspectiveRead
    simp only []
    repeat' split
    all_goals simp_all [Event.response?, Event.isSetId, Event.isDecode, StatusOK]
    all_goals (rintro rfl; simp_all)
  · unfold resourceCHTPerspectiveUpdate
    simp only []
    repeat' split
    all_goals simp_all [Event.response?, Event.isSetId, Event.isDecode, StatusOK]
    all_goals (rintro rfl; simp_all)
  · unfold resourceCHTPerspectiveDelete
    simp only []
    repeat' split
    all_goals simp_all [Event.response?, Event.isSetId, Event.isDecode, StatusOK]
    all_goals (rintro rfl; simp_all)

/-- Witness for C4: Read of a stored record answered with status 404. -/
theorem non_2xx_status_is_error_witness :
    (Op.Read.run (stubEnv (.ok ⟨404, "not found", none⟩)) exampleMeta
        storedRecord).err.isSome = true ∧
      (Op.Read = Op.Create →
        (Op.Read.run (stubEnv (.ok ⟨404, "not found", none⟩)) exampleMeta storedRecord).d.id =
          storedRecord.id ∧
        (Op.Read.run (stubEnv (.ok ⟨404, "not found", none⟩)) exampleMeta
          storedRecord).trace.filter Event.isSetId = []) ∧
      (Op.Read = Op.Read →
        (Op.Read.run (stubEnv (.ok ⟨404, "not found", none⟩)) exampleMeta
          storedRecord).trace.filter Event.isDecode = []) :=
  non_2xx_status_is_error Op.Read (stubEnv (.ok ⟨404, "not found", none⟩)) exampleMeta
    storedRecord ⟨404, "not found", none⟩ ⟨_, List.mem_singleton.mpr rfl, rfl⟩ (by decide)

/-- C5 (counterexample): Create answered with status 500 and body `boom` returns the
error of line 220, whose text contains the status code but not the response body. -/
theorem status_error_omits_body :
    (Op.Create.run (stubEnv (.ok ⟨500, "boom", none⟩)) exampleMeta freshRecord).received
        ⟨500, "boom", none⟩ ∧
      (Op.Create.run (stubEnv (.ok ⟨500, "boom", none⟩)) exampleMeta freshRecord).err =
        some (.errorf 220 "Failed to create perspective  because got status code 500") ∧
      occursIn "500" (GoError.errorf 220
        "Failed to create perspective  because got status code 500").Error ∧
      ¬ occursIn "boom" (GoError.errorf 220
        "Failed to create perspective  because got status code 500").Error := by
  refine ⟨⟨_, List.mem_cons_of_mem _ (List.mem_singleton.mpr rfl), rfl⟩, rfl, ?_, ?_⟩
  · decide
  · decide

/-- C5 (amended): for each of Create, Read, Update and Delete, the error returned for a
non-2xx HTTP status carries the status code: its message contains the decimal status
code. -/
theorem non_2xx_error_carries_status_code {Cfg : Type} (op : Op) (env : Env Cfg)
    (m : ChtMeta) (d : ResourceData Cfg) (r : Response)
    (hrecv : (op.run env m d).received r)
    (hcode : ¬ (200 ≤ r.StatusCode ∧ r.StatusCode ≤ 299)) :
    ∃ e, (op.run env m d).err = some e ∧ occursIn (toString r.StatusCode) e.Error := by
  have hne : r.StatusCode ≠ 200 := by
    intro h; apply hcode; rw [h]; decide
  exact ⟨_, status_error_exact op env m d r hrecv hne, occursIn_append_right _ _⟩

/-- Witness for C5 (amended): Delete of a stored record answered with status 503. -/
theorem non_2xx_error_carries_status_code_witness :
    ∃ e, (Op.Delete.run (stubEnv (.ok ⟨503, "busy", none⟩)) exampleMeta storedRecord).err =
      some e ∧ occursIn (toString (503 : Int)) e.Error :=
  non_2xx_error_carries_status_code Op.Delete (stubEnv (.ok ⟨503, "busy", none⟩))
    exampleMeta storedRecord ⟨503, "busy", none⟩ ⟨_, List.mem_singleton.mpr rfl, rfl⟩
    (by decide)

/-- C6: in Create and in Update, when `tfToJson` returns an error `e`, the operation
returns exactly `e`, issues no HTTP request and leaves the record id unchanged. -/
theorem encode_failure_aborts {Cfg : Type} (env : Env Cfg) (m : ChtMeta)
    (d : ResourceData Cfg) (e : String) (cfg1 : Cfg)
    (henc : env.tfToJson d.cfg = (cfg1, .error e)) :
    ((resourceCHTPerspectiveCreate env m d).err = some (.codec e) ∧
      (resourceCHTPerspectiveCreate env m d).trace.filter Event.isTransport = [] ∧
      (resourceCHTPerspectiveCreate env m d).d.id = d.id) ∧
    ((resourceCHTPerspectiveUpdate env m d).err = some (.codec e) ∧
      (resourceCHTPerspectiveUpdate env m d).trace.filter Event.isTransport = [] ∧
      (resourceCHTPerspectiveUpdate env m d).d.id = d.id) := by
  unfold resourceCHTPerspectiveCreate resourceCHTPerspectiveUpdate
  simp [henc, Event.isTransport]

/-- Witness for C6: an encoder that fails with `MalformedConfig`. -/
theorem encode_failure_aborts_witness :
    ((resourceCHTPerspectiveCreate (failingEncoderEnv "MalformedConfig") exampleMeta
        storedRecord).err = some (.codec "MalformedConfig") ∧
      (resourceCHTPerspectiveCreate (failingEncoderEnv "MalformedConfig") exampleMeta
        storedRecord).trace.filter Event.isTransport = [] ∧
      (resourceCHTPerspectiveCreate (failingEncoderEnv "MalformedConfig") exampleMeta
        storedRecord).d.id = storedRecord.id) ∧
    ((resourceCHTPerspectiveUpdate (failingEncoderEnv "MalformedConfig") exampleMeta
        storedRecord).err = some (.codec "MalformedConfig") ∧
      (resourceCHTPerspectiveUpdate (failingEncoderEnv "MalformedConfig") exampleMeta
        storedRecord).trace.filter Event.isTransport = [] ∧
      (resourceCHTPerspectiveUpdate (failingEncoderEnv "MalformedConfig") exampleMeta
        storedRecord).d.id = storedRecord.id) :=
  encode_failure_aborts (failingEncoderEnv "MalformedConfig") exampleMeta storedRecord
    "MalformedConfig" () rfl

/-- C10: each of Create, Read, Update and Delete succeeds only on status exactly 200:
every response with a status other than 200 (201, 202, 204 included) makes the
operation return an error, a successful run has received a response with status 200,
and Update never returns the error of its second status check (line 298). -/
theorem success_only_on_status_200 {Cfg : Type} (op : Op) (env : Env Cfg) (m : ChtMeta)
    (d : ResourceData Cfg) :
    (∀ r, (op.run env m d).received r → r.StatusCode ≠ 200 →
      (op.run env m d).err.isSome = true) ∧
    ((op.run env m d).err = none →
      ∃ r, (op.run env m d).received r ∧ r.StatusCode = 200) ∧
    (∀ text, (resourceCHTPerspectiveUpdate env m d).err ≠ some (.errorf 298 text)) := by
  refine ⟨?_, ?_, ?_⟩
  · intro r hrecv hne
    rw [status_error_exact op env m d r hrecv hne]
    rfl
  · cases op <;> simp only [Op.run, Outcome.received]
    · unfold resourceCHTPerspectiveCreate
      simp only []
      repeat' split
      all_goals simp_all [Event.response?, StatusOK]
    · unfold resourceCHTPerspectiveRead
      simp only []
      repeat' split
      all_goals simp_all [Event.response?, StatusOK]
    · unfold resourceCHTPerspectiveUpdate
      simp only []
      repeat' split
      all_goals simp_all [Event.response?, StatusOK]
    · unfold resourceCHTPerspectiveDelete
      simp only []
      repeat' split
      all_goals simp_all [Event.response?, StatusOK]
  · intro text
    unfold resourceCHTPerspectiveUpdate
    simp only []
    repeat' split
    all_goals simp_all [StatusOK]

/-- Witness for C10: Update answered with status 201 returns an error. -/
theorem success_only_on_status_200_witness :
    (Op.Update.run (stubEnv (.ok ⟨201, "Created", none⟩)) exampleMeta
      storedRecord).err.isSome = true :=
  (success_only_on_status_200 Op.Update (stubEnv (.ok ⟨201, "Created", none⟩)) exampleMeta
    storedRecord).1 ⟨201, "Created", none⟩
    ⟨_, List.mem_cons_of_mem _ (List.mem_singleton.mpr rfl), rfl⟩ (by decide)

/-! ## The schema -/

/-- C8: the schema declares exactly two defaults: a group's `type` defaults to `filter`
and a condition's `op` defaults to `=`; no other field of the perspective schema
declares a default. -/
theorem schema_defaults :
    defaultsOfFields resourceCHTPerspective =
      [(["group", "type"], "filter"), (["group", "rule", "condition", "op"], "=")] := by
  decide

/-- C9 (counterexample): `other_group` is declared `Optional`, and so are four of its six
entry fields. -/
theorem other_group_is_optional :
    otherGroupSchemas.map (fun kv => (kv.1, kv.2.Optional)) =
      [("other_group", true), ("constant_type", false), ("ref_id", false), ("blk_id", true),
        ("name", true), ("val", true), ("is_other", true)] := by
  decide

/-- C9 (amended): `other_group` and each of its six entry fields (`constant_type`,
`ref_id`, `blk_id`, `name`, `val`, `is_other`) is `Computed` and not `Required`; of these
only `constant_type` and `ref_id` are not `Optional` either. Listed per field: name,
`Computed`, `Required`, `Optional`. -/
theorem other_group_is_computed :
    otherGroupSchemas.map (fun kv => (kv.1, kv.2.Computed, kv.2.Required, kv.2.Optional)) =
      [("other_group", true, false, true), ("constant_type", true, false, false),
        ("ref_id", true, false, false), ("blk_id", true, false, true),
        ("name", true, false, true), ("val", true, false, true),
        ("is_other", true, false, true)] := by
  decide

/-! ## Lemmas on the codec -/

theorem mapExcept_ok_mem {α β : Type} (f : α → Except CodecError β) (xs : List α)
    (ys : List β) (h : mapExcept f xs = .ok ys) : ∀ y ∈ ys, ∃ x ∈ xs, f x = .ok y := by
  induction xs generalizing ys with
  | nil =>
    simp only [mapExcept, Except.ok.injEq] at h
    subst h
    simp
  | cons a as ih =>
    simp only [mapExcept] at h
    split at h
    · simp at h
    · rename_i b hb
      split at h
      · simp at h
      · rename_i bs hbs
        simp only [Except.ok.injEq] at h
        subst h
        intro y hy
        rcases List.mem_cons.mp hy with rfl | hy
        · exact ⟨a, by simp, hb⟩
        · obtain ⟨x, hx, hfx⟩ := ih bs hbs y hy
          exact ⟨x, by simp [hx], hfx⟩

theorem mapExcept_roundtrip {α β γ : Type} (f : α → Except CodecError β)
    (g : β → Except CodecError γ) (h : α → γ) (xs : List α)
    (hx : ∀ x ∈ xs, ∃ j, f x = .ok j ∧ g j = .ok (h x)) :
    ∃ js, mapExcept f xs = .ok js ∧ mapExcept g js = .ok (xs.map h) := by
  induction xs with
  | nil => exact ⟨[], rfl, rfl⟩
  | cons a as ih =>
    obtain ⟨j, hfj, hgj⟩ := hx a (by simp)
    obtain ⟨js, hfs, hgs⟩ := ih (fun x hxm => hx x (by simp [hxm]))
    exact ⟨j :: js, by simp [mapExcept, hfj, hfs], by simp [mapExcept, hgj, hgs]⟩

theorem mapExcept_map_roundtrip {α β : Type} (f : α → β) (g : β → Except CodecError α)
    (xs : List α) (hx : ∀ x ∈ xs, g (f x) = .ok x) :
    mapExcept g (xs.map f) = .ok xs := by
  induction xs with
  | nil => rfl
  | cons a as ih =>
    simp [mapExcept, hx a (by simp), ih (fun x hxm => hx x (by simp [hxm]))]

theorem member?_nil (key : String) : member? [] key = none := rfl

theorem member?_cons (k : String) (v : Json) (post : List (String × Json)) (key : String) :
    member? ((k, v) :: post) key = if k = key then some v else member? post key := by
  by_cases h : k = key <;> simp [member?, List.find?_cons, h]

theorem optArr_nil (key : String) : optArr key [] = [] := rfl

theorem optArr_map {α : Type} (key : String) (f : α → Json) (xs : List α) (h : xs ≠ []) :
    optArr key (xs.map f) = [(key, .arr (xs.map f))] := by
  cases xs with
  | nil => exact absurd rfl h
  | cons x xs => rfl

theorem mapExcept_asStr (xs : List String) : mapExcept asStr (xs.map Json.str) = .ok xs :=
  mapExcept_map_roundtrip Json.str asStr xs (fun _ _ => rfl)

theorem conditionToJson_roundtrip (c : Condition) :
    jsonToCondition (conditionToJson c) = .ok c := by
  obtain ⟨T, F, op, val⟩ := c
  by_cases hT : T = [] <;> by_cases hF : F = [] <;>
    simp [conditionToJson, jsonToCondition, asObj, optStrs, optItems, optStr, optArr_map, optArr_nil,
      member?_cons, member?_nil, mapExcept_asStr, hT, hF, mapExcept]

theorem mapExcept_jsonToCondition (cs : List Condition) :
    mapExcept jsonToCondition (cs.map conditionToJson) = .ok cs :=
  mapExcept_map_roundtrip conditionToJson jsonToCondition cs
    (fun c _ => conditionToJson_roundtrip c)

theorem ruleToJson_roundtrip (r : Rule) (h : r.asset.isSome = true) :
    ∃ j, ruleToJson r = .ok j ∧ jsonToRule j = .ok r := by
  obtain ⟨asset, T, F, cw, cs⟩ := r
  cases asset with
  | none => simp at h
  | some a =>
    refine ⟨_, rfl, ?_⟩
    by_cases hT : T = [] <;> by_cases hF : F = [] <;> by_cases hC : cs = [] <;>
      simp [jsonToRule, asObj, reqStr, optStrs, optItems, optStr, optArr_map, optArr_nil,
        member?_cons, member?_nil, mapExcept_asStr, mapExcept_jsonToCondition, hT, hF, hC,
        mapExcept]

theorem jsonToRule_asset (j : Json) (r : Rule) (h : jsonToRule j = .ok r) :
    r.asset.isSome = true := by
  unfold jsonToRule at h
  repeat' split at h
  all_goals simp_all
  all_goals (subst h; rfl)

theorem optArr_ne (key : String) (xs : List Json) (h : xs ≠ []) :
    optArr key xs = [(key, .arr xs)] := by
  cases xs with
  | nil => exact absurd rfl h
  | cons x xs => rfl

theorem mapExcept_nil_of_ok_nil {α β : Type} (f : α → Except CodecError β) (xs : List α)
    (h : mapExcept f xs = .ok []) : xs = [] := by
  cases xs with
  | nil => rfl
  | cons a as =>
    simp only [mapExcept] at h
    repeat' split at h
    all_goals simp at h

theorem groupToJson_roundtrip (g : Group) (h : g.wellFormed) :
    ∃ j, groupToJson g = .ok j ∧ jsonToGroup j = .ok g.withoutDynamic := by
  obtain ⟨name, refId, type, rules, dyn⟩ := g
  obtain ⟨hasset, hcat⟩ := h
  simp only at hasset hcat
  cases type with
  | filter =>
    obtain ⟨js, hjs, hback⟩ := mapExcept_roundtrip ruleToJson jsonToRule id rules
      (fun r hr => ruleToJson_roundtrip r (hasset r hr))
    rw [List.map_id] at hback
    refine ⟨Json.obj (([("name", Json.str name)] ++
        (match refId with
          | some r => [("ref_id", Json.str r)]
          | none => []) ++
        [("type", Json.str GroupType.filter.wire)]) ++ optArr "rule" js),
      by simp only [groupToJson, hjs], ?_⟩
    by_cases hnil : js = []
    · subst hnil
      have hr := mapExcept_nil_of_ok_nil _ _ hjs
      subst hr
      cases refId <;>
        simp [jsonToGroup, asObj, reqStr, jsonToRefId, jsonToGroupType, optItems, optArr_nil,
          member?_cons, member?_nil, GroupType.wire, mapExcept, Group.withoutDynamic]
    · cases refId <;>
        simp [jsonToGroup, asObj, reqStr, jsonToRefId, jsonToGroupType, optItems,
          optArr_ne _ _ hnil, member?_cons, member?_nil, GroupType.wire, hback,
          Group.withoutDynamic]
  | categorize =>
    have hr : rules = [] := hcat rfl
    subst hr
    refine ⟨_, rfl, ?_⟩
    cases refId <;>
      simp [jsonToGroup, asObj, reqStr, jsonToRefId, jsonToGroupType, optItems,
        member?_cons, member?_nil, GroupType.wire, mapExcept, Group.withoutDynamic]

theorem jsonToGroup_wellFormed (j : Json) (g : Group) (h : jsonToGroup j = .ok g) :
    g.wellFormed := by
  unfold jsonToGroup at h
  split at h
  · simp at h
  · split at h
    · split at h
      · simp at h
      · split at h
        · simp at h
        · rename_i rules hrules
          simp only [Except.ok.injEq] at h
          subst h
          refine ⟨?_, by simp⟩
          intro r hr
          obtain ⟨x, _, hx⟩ := mapExcept_ok_mem _ _ _ hrules r hr
          exact jsonToRule_asset x r hx
    · split at h
      · simp at h
      · split at h
        · simp at h
        · simp only [Except.ok.injEq] at h
          subst h
          exact ⟨by simp, by simp⟩
    · simp at h

theorem otherGroupToJson_roundtrip (o : OtherGroupEntry) :
    jsonToOtherGroup (otherGroupToJson o) = .ok o := by
  simp [jsonToOtherGroup, otherGroupToJson, asObj, optStr, member?_cons]

theorem assignRefIds_ok (synth : List String → String) (hsynth : ∀ used, synth used ∉ used)
    (gs : List Group) (used : List String) :
    ∃ gs1, assignRefIds synth used gs = .ok gs1 ∧ List.Forall₂ refIdAssigned gs gs1 := by
  induction gs generalizing used with
  | nil => exact ⟨[], rfl, List.Forall₂.nil⟩
  | cons g gs ih =>
    cases hr : g.refId with
    | some r =>
      obtain ⟨gs1, h1, h2⟩ := ih used
      refine ⟨g :: gs1, by simp [assignRefIds, hr, h1], List.Forall₂.cons ⟨rfl, ?_, ?_⟩ h2⟩
      · simp [hr]
      · intro r1 hr1; exact hr1
    | none =>
      obtain ⟨gs1, h1, h2⟩ := ih (synth used :: used)
      refine ⟨{ g with refId := some (synth used) } :: gs1,
        by simp [assignRefIds, hr, h1, hsynth used], List.Forall₂.cons ⟨rfl, rfl, ?_⟩ h2⟩
      intro r1 hr1
      rw [hr] at hr1
      exact absurd hr1 (by simp)

theorem forall₂_mem_right {α β : Type} (R : α → β → Prop) (l1 : List α) (l2 : List β)
    (h : List.Forall₂ R l1 l2) : ∀ b ∈ l2, ∃ a ∈ l1, R a b := by
  induction h with
  | nil => intro b hb; simp at hb
  | cons hab _ ih =>
    intro b hb
    rcases List.mem_cons.mp hb with rfl | hb
    · exact ⟨_, by simp, hab⟩
    · obtain ⟨a, ha, hr⟩ := ih b hb
      exact ⟨a, by simp [ha], hr⟩

theorem refIdAssigned_wellFormed (g g1 : Group) (h : refIdAssigned g g1)
    (hg : g.wellFormed) : g1.wellFormed := by
  obtain ⟨heq, -, -⟩ := h
  rw [heq]
  exact hg

theorem synthLonger_fresh (used : List String) : synthLonger used ∉ used := by
  intro hmem
  have hle : ∀ (l : List String) (s : String), s ∈ l →
      s.length ≤ (l.map String.length).foldr max 0 := by
    intro l
    induction l with
    | nil => intro s hs; simp at hs
    | cons a l ih =>
      intro s hs
      simp only [List.map_cons, List.foldr_cons]
      rcases List.mem_cons.mp hs with rfl | hs
      · exact le_max_left _ _
      · exact le_trans (ih s hs) (le_max_right _ _)
  have h1 := hle used _ hmem
  simp [synthLonger, String.length] at h1

/-! ## The codec -/

/-- C7 (counterexample): the perspective decoded from the read-modify-write payload of
§8 carries a `refId` on every group, yet decoding its encoding gives a different
perspective: the two dynamic groups are gone. -/
theorem roundtrip_loses_dynamic_groups :
    Decode scenarioPayload = .ok scenarioModel ∧
      scenarioModel.groups.all (fun g => g.refId.isSome) = true ∧
      reDecode synthLonger scenarioPayload =
        .ok { scenarioModel with groups := scenarioModel.groups.map Group.withoutDynamic } ∧
      { scenarioModel with groups := scenarioModel.groups.map Group.withoutDynamic } ≠
        scenarioModel := by
  refine ⟨rfl, rfl, rfl, by decide⟩

/-- C7 (amended): for every perspective `p` produced by `Decode` and every collision-free
synthesis scheme, `Encode` succeeds, and the model it leaves differs from `p` only in
that every group now has a `refId`, which is the one it had if it had one; decoding the
document reproduces that model, in the same order, with the dynamic groups left out. -/
theorem roundtrip_up_to_refIds_and_dynamic_groups (synth : List String → String)
    (hsynth : ∀ used, synth used ∉ used) (j : Json) (p : Perspective)
    (hp : Decode j = .ok p) :
    ∃ p1 j1, Encode synth p = .ok (p1, j1) ∧
      p1.name = p.name ∧ p1.includeInReports = p.includeInReports ∧
      p1.otherGroups = p.otherGroups ∧ List.Forall₂ refIdAssigned p.groups p1.groups ∧
      Decode j1 = .ok { p1 with groups := p1.groups.map Group.withoutDynamic } := by
  have hwf : ∀ g ∈ p.groups, g.wellFormed := by
    unfold Decode at hp
    repeat' split at hp
    all_goals simp at hp
    rename_i groups _ hgroups _
    subst hp
    intro g hg
    obtain ⟨x, _, hx⟩ := mapExcept_ok_mem _ _ _ hgroups g hg
    exact jsonToGroup_wellFormed x g hx
  obtain ⟨gs1, hassign, hrel⟩ := assignRefIds_ok synth hsynth p.groups (existingRefIds p)
  have hwf1 : ∀ g1 ∈ gs1, g1.wellFormed := by
    intro g1 hg1
    obtain ⟨g, hg, hgg1⟩ := forall₂_mem_right refIdAssigned _ _ hrel g1 hg1
    exact refIdAssigned_wellFormed g g1 hgg1 (hwf g hg)
  obtain ⟨js, hjs, hback⟩ := mapExcept_roundtrip groupToJson jsonToGroup Group.withoutDynamic
    gs1 (fun g hg => groupToJson_roundtrip g (hwf1 g hg))
  refine ⟨{ p with groups := gs1 },
    Json.obj [("name", .str p.name), ("include_in_reports", .bool p.includeInReports),
      ("group", .arr js), ("other_group", .arr (p.otherGroups.map otherGroupToJson))],
    by simp only [Encode, hassign, hjs], rfl, rfl, rfl, hrel, ?_⟩
  simp [Decode, asObj, reqStr, optBool, optItems, member?_cons, hback,
    mapExcept_map_roundtrip otherGroupToJson jsonToOtherGroup p.otherGroups
      (fun o _ => otherGroupToJson_roundtrip o)]

/-- Witness for C7 (amended): the new-perspective scenario of §8, whose group has no
`refId` yet. -/
theorem roundtrip_up_to_refIds_and_dynamic_groups_witness :
    ∃ p1 j1, Encode synthLonger newPerspectiveModel = .ok (p1, j1) ∧
      p1.name = newPerspectiveModel.name ∧
      p1.includeInReports = newPerspectiveModel.includeInReports ∧
      p1.otherGroups = newPerspectiveModel.otherGroups ∧
      List.Forall₂ refIdAssigned newPerspectiveModel.groups p1.groups ∧
      Decode j1 = .ok { p1 with groups := p1.groups.map Group.withoutDynamic } :=
  roundtrip_up_to_refIds_and_dynamic_groups synthLonger synthLonger_fresh
    newPerspectivePayload newPerspectiveModel rfl

end Cloudhealth
